import Mathlib

/-!
Verification of the carbon/energy computation core of the carmen backend.

The Python source is embedded shallowly: floats become `ℚ` (all constants in
the source are decimal literals, so rational arithmetic is exact), dicts
become association lists, and fallible code returns `Except`.  External
collaborators that the source invokes as black boxes (the Impact Framework
evaluator builtins and `numpy.interp`) are modelled from the specification's
description of their interface and are marked as such in their doc comments.
-/

namespace Carmen

/-! ## Constants (backend/src/common/constants.py) -/

/-- European average carbon intensity, gCO2 per kWh
(`CARBON_INTENSITY_EUROPE` in constants.py). -/
def CARBON_INTENSITY_EUROPE : ℚ := 281

/-- Power coefficient per storage type in kW per GB
(`STORAGE_POWER_COEFFICIENT_MAPPING` in constants.py). -/
def STORAGE_POWER_COEFFICIENT_MAPPING : List (String × ℚ) :=
  [("SSD", 12 / 10 ^ 7), ("HDD", 65 / 10 ^ 8), ("UNKNOWN", 925 / 10 ^ 9)]

/-- Replication factors for Azure storage redundancy schemes
(`STORAGE_REPLICATION_FACTORS` in constants.py). -/
def STORAGE_REPLICATION_FACTORS : List (String × ℚ) :=
  [("LRS", 3), ("ZRS", 3), ("GRS", 6), ("RA_GRS", 6), ("GZRS", 6), ("RA_GZRS", 6)]

/-- Region table from constants.py.  Each region maps to the inner dict of the
Python entry, embedded as an association list of its numeric keys so that the
key actually stored is kept faithfully: every entry holds the key
`"carbon_intensity"` except `"francesouth"`, whose entry in the source reads
`{"country": "France", "carbon": 44}` (key `"carbon"`, not
`"carbon_intensity"`). -/
def REGION_TO_COUNTRY_CARBON_INTENSITY : List (String × List (String × ℚ)) :=
  [("australiaeast", [("carbon_intensity", 552)]),
   ("centralus", [("carbon_intensity", 384)]),
   ("eastasia", [("carbon_intensity", 560)]),
   ("eastus", [("carbon_intensity", 384)]),
   ("eastus2", [("carbon_intensity", 384)]),
   ("francecentral", [("carbon_intensity", 44)]),
   ("francesouth", [("carbon", 44)]),
   ("germanywestcentral", [("carbon_intensity", 344)]),
   ("northcentralus", [("carbon_intensity", 384)]),
   ("northeurope", [("carbon_intensity", 280)]),
   ("southeastasia", [("carbon_intensity", 499)]),
   ("swedencentral", [("carbon_intensity", 36)]),
   ("uaenorth", [("carbon_intensity", 493)]),
   ("uksouth", [("carbon_intensity", 211)]),
   ("westeurope", [("carbon_intensity", 253)]),
   ("westus", [("carbon_intensity", 384)]),
   ("westus2", [("carbon_intensity", 384)]),
   ("centralindia", [("carbon_intensity", 708)])]

/-- Python dict lookup (`d.get(k)` / `d[k]`) on an association list. -/
def dictGet {α : Type} (k : String) : List (String × α) → Option α
  | [] => none
  | (k', v) :: rest => if k = k' then some v else dictGet k rest

/-! ## Carbon-intensity lookup (backend/src/utils/paas_ci_mapper.py) -/

/-- `PaasCiMapper.calculate_ci`: if the zone is a key of
`REGION_TO_COUNTRY_CARBON_INTENSITY` the code evaluates
`REGION_TO_COUNTRY_CARBON_INTENSITY[zone]["carbon_intensity"]`, which is a
`KeyError` when the entry lacks that key; otherwise it falls back to
`CARBON_INTENSITY_EUROPE`. -/
def calculate_ci (zone : String) : Except String ℚ :=
  match dictGet zone REGION_TO_COUNTRY_CARBON_INTENSITY with
  | some entry =>
      match dictGet "carbon_intensity" entry with
      | some v => .ok v
      | none => .error "KeyError: carbon_intensity"
  | none => .ok CARBON_INTENSITY_EUROPE

/-! ## Storage power node (models/power/p_storage.py) -/

/-- Fields of `StorageResource` (schemas/storage_resource.py) used by the
storage power node. -/
structure StorageResource where
  storage_type : String
  replication_type : String
  size_gb : ℚ
  deriving Repr, DecidableEq

/-- Lookup of `STORAGE_POWER_COEFFICIENT_MAPPING.get(storage_type.upper(),
STORAGE_POWER_COEFFICIENT_MAPPING["UNKNOWN"])` from `PStorage.fill_inputs`. -/
def storagePowerCoefficientFor (t : String) : ℚ :=
  (dictGet t.toUpper STORAGE_POWER_COEFFICIENT_MAPPING).getD
    ((dictGet "UNKNOWN" STORAGE_POWER_COEFFICIENT_MAPPING).getD 0)

/-- Lookup of `STORAGE_REPLICATION_FACTORS.get(replication_type.upper(), 1)`
from `PStorage.fill_inputs`. -/
def storageReplicationFactorFor (t : String) : ℚ :=
  (dictGet t.toUpper STORAGE_REPLICATION_FACTORS).getD 1

/-- `PStorage.fill_inputs`: returns the pair
(`storage/requested` = effective size, `power/coefficient`). -/
def pStorageFillInputs (r : StorageResource) : ℚ × ℚ :=
  (r.size_gb * storageReplicationFactorFor r.replication_type,
   storagePowerCoefficientFor r.storage_type)

/-- Modelled from the spec: the evaluator's `Multiply` builtin (external
Impact Framework plugin, not part of this repository) multiplies its declared
input parameters. -/
def multiplyBuiltin (inputs : ℚ × ℚ) : ℚ := inputs.1 * inputs.2

/-- Storage power produced by the `p-storage` node: the `Multiply` builtin
applied to the inputs filled by `PStorage.fill_inputs`. -/
def storagePower (r : StorageResource) : ℚ :=
  multiplyBuiltin (pStorageFillInputs r)

/-! ## CPU chain (models/teads_curve.py, power/p_cpu.py, energy/e_cpu.py) -/

/-- Modelled from the spec: piecewise-linear interpolation over sorted
control points, the semantics shared by `numpy.interp` and the evaluator's
`Interpolation` builtin with `method: linear` (both external to this
repository).  Left of the first point it returns the first ordinate, right of
the last point the last ordinate, and between two consecutive points the
linear interpolant. -/
def interpPoints (x : ℚ) : List (ℚ × ℚ) → ℚ
  | [] => 0
  | [(_, y)] => y
  | (x1, y1) :: (x2, y2) :: rest =>
      if x ≤ x1 then y1
      else if x ≤ x2 then y1 + (x - x1) * (y2 - y1) / (x2 - x1)
      else interpPoints x ((x2, y2) :: rest)

/-- Modelled from the spec: `numpy.interp(x, xp, fp)` for increasing `xp`. -/
def np_interp (x : ℚ) (xp fp : List ℚ) : ℚ :=
  interpPoints x (xp.zip fp)

/-- Control-point abscissae of the teads-curve config (`TeadsCurve.__init__`):
cpu utilization in percent. -/
def teads_x : List ℚ := [0, 10, 50, 100]

/-- Control-point ordinates of the teads-curve config (`TeadsCurve.__init__`):
the tdp ratio. -/
def teads_y : List ℚ := [12 / 100, 32 / 100, 75 / 100, 102 / 100]

/-- `TeadsCurve.fill_inputs` caps the percentage at 100:
`min(cpu_util * 100, 100)`. -/
def teadsCpuUtilization (cpu_util : ℚ) : ℚ := min (cpu_util * 100) 100

/-- The tdp ratio produced by the `teads-curve` node for a given cpu
utilization fraction: interpolation with `method: linear` over the configured
control points, applied to the capped percentage. -/
def tdpRatio (cpu_util : ℚ) : ℚ :=
  np_interp (teadsCpuUtilization cpu_util) teads_x teads_y

/-- The `p-cpu` node (`PCpu.__init__` config): multiplies `tdp-ratio` by
`cpu/thermal-design-power` and divides by 1000, yielding `cpu/power` in kW. -/
def cpuPowerOf (tdp_ratio tdp : ℚ) : ℚ := tdp_ratio * tdp / 1000

/-- The `e-cpu` node (`ECpu.__init__` config): multiplies `cpu/power` by
`duration` and divides by 3600, yielding `cpu/energy` in kWh. -/
def cpuEnergyOf (cpu_power duration : ℚ) : ℚ := cpu_power * duration / 3600

/-! ## Chunked parallel executor
(service/if_vm_service.py `IFVMService.run_engine`,
 service/if_storage_service.py `IFStorageService.run_engine`) -/

/-- Number of iterations of Python's `range(0, n, cs)` for a positive step
`cs`, i.e. the number of chunks `⌈n / cs⌉`. -/
def numChunks (cs n : ℕ) : ℕ := (n + cs - 1) / cs

/-- The chunk `resources[x : x + cs]` starting at `x = k * cs`: the slices
built by `run_engine` before dispatching to the worker pool. -/
def getChunk {α : Type} (l : List α) (cs k : ℕ) : List α :=
  (l.drop (k * cs)).take cs

/-- The locked write-back step of `compute_metrics_for_chunk`: the processed
element `i` of chunk `k` replaces the element at offset `k * cs + i` of the
result list. -/
def writeChunk {α : Type} (f : α → α) (l : List α) (cs : ℕ)
    (acc : List α) (k : ℕ) : List α :=
  let c := (getChunk l cs k).map f
  acc.take (k * cs) ++ c ++ acc.drop (k * cs + c.length)

/-- `run_engine` of the VM profile (`profile_chunk_size = 430`) and of the
Storage profile (`profile_chunk_size = 10000`), with the per-resource
evaluator round trip (`run_if` followed by `parse_if_output`) abstracted as
`f` and the completion order of the parallel chunk workers given by `order`.
The chunk size is clamped to `min(profile_chunk_size, len(resources))`; a
clamped size of zero makes `range(0, len(resources), 0)` raise `ValueError`
before any chunk is built; otherwise every chunk is processed and its results
are written back at the chunk's original offset, in completion order. -/
def run_engine_chunked {α : Type} (f : α → α) (profile_chunk_size : ℕ)
    (l : List α) (order : List ℕ) : Except String (List α) :=
  let cs := min profile_chunk_size l.length
  if cs = 0 then .error "ValueError: range() arg 3 must not be zero"
  else .ok (order.foldl (writeChunk f l cs) l)

/-! ## Telemetry aligner (backend/src/services/argos_service.py) -/

/-- The fields of `Pod` (schemas/pod.py and its bases) used by the aligner.
Datetimes are embedded as epoch seconds in `ℚ`; pydantic defaults the series
to empty lists.  The Python field `namespace` is a Lean keyword and is
embedded as `pod_namespace`. -/
structure Pod where
  id : String
  app : String
  paas : String
  pod_namespace : String
  name : String
  carbon_intensity : ℚ := 0
  pue : ℚ := 1
  time_points : List ℚ := []
  cpu_util : List ℚ := []
  requested_cpu : List ℚ := []
  requested_memory : List ℚ := []
  storage_capacity : List ℚ := []
  deriving Repr, DecidableEq

/-- `ArgosService.interpolate_field_data`: the desired timestamps are shifted
by +1 hour (`t + timedelta(hours=1)`, i.e. +3600 s on epoch values, the
documented UTC+1 quirk) and the raw `(timestamp, value)` pairs are linearly
interpolated (`np.interp`) at each shifted desired timestamp. -/
def interpolate_field_data (desired_ts pod_ts values : List ℚ) : List ℚ :=
  desired_ts.map (fun t => np_interp (t + 3600) pod_ts values)

/-- The alignment branch of `ArgosService.parse_pod_data`: interpolation is
applied only when the raw series is shorter than the desired grid
(`len(time_points) < len(desired_timestamps)`); otherwise the raw values are
kept as they are. -/
def alignValues (desired_ts pod_ts values : List ℚ) : List ℚ :=
  if pod_ts.length < desired_ts.length then
    interpolate_field_data desired_ts pod_ts values
  else values

/-- One metric assignment of `ArgosService.parse_pod_data` for a fresh pod:
the pod is created (via `setdefault`) with `time_points = desired_timestamps`
and every series empty, then the consumption series for the parsed metric
(here `cpu_util`) is set to the aligned values of the raw
`(timestamp, value)` samples. -/
def parse_pod_cpu_util (uid app paas ns pod_name : String) (ci pue : ℚ)
    (desired : List ℚ) (raw : List (ℚ × ℚ)) : Pod :=
  { id := uid, app := app, paas := paas, pod_namespace := ns, name := pod_name,
    carbon_intensity := ci, pue := pue, time_points := desired,
    cpu_util := alignValues desired (raw.map Prod.fst) (raw.map Prod.snd) }

/-- `np.sum(np.array(rows), axis=0)` for a non-empty batch of equal-length
rows: the elementwise sum, computed by folding `zipWith (+)` from the first
row. -/
def npSumAxis0 (rows : List (List ℚ)) : List ℚ :=
  match rows with
  | [] => []
  | r :: rs => rs.foldl (List.zipWith (· + ·)) r

/-- `np.mean(np.array(rows), axis=0)`: the elementwise sum divided by the
number of rows. -/
def npMeanAxis0 (rows : List (List ℚ)) : List ℚ :=
  (npSumAxis0 rows).map (· / (rows.length : ℚ))

/-- The fields of `Application` / `Cluster` (schemas) produced by
`ArgosService.create_resource`; `resource_cls` records which of the two
classes was instantiated. -/
structure GroupResource where
  resource_cls : String
  id : String
  name : String
  pods : List Pod
  time_points : List ℚ
  requested_cpu : List ℚ
  requested_memory : List ℚ
  cpu_util : List ℚ
  deriving Repr, DecidableEq

/-- `ArgosService.create_resource`: instantiates the resource with the
grouping key as its name and aggregates the pods' series — `requested_cpu`
and `requested_memory` by `np.sum(..., axis=0)` and `cpu_util` by
`np.mean(..., axis=0)`. -/
def create_resource (resource_cls : String) (resource_key : String)
    (pods : List Pod) (idx : ℕ) (desired_timestamps : List ℚ) : GroupResource :=
  { resource_cls := resource_cls, id := toString idx, name := resource_key,
    pods := pods, time_points := desired_timestamps,
    requested_cpu := npSumAxis0 (pods.map (·.requested_cpu)),
    requested_memory := npSumAxis0 (pods.map (·.requested_memory)),
    cpu_util := npMeanAxis0 (pods.map (·.cpu_util)) }

/-- One step of the `defaultdict(list)` loop in
`ArgosService.split_pods_by_resource`: append the pod to its key's group,
keeping the first-insertion order of keys like a Python dict. -/
def insertGrouped (k : String) (p : Pod) :
    List (String × List Pod) → List (String × List Pod)
  | [] => [(k, [p])]
  | (k', ps) :: rest =>
      if k' = k then (k', ps ++ [p]) :: rest
      else (k', ps) :: insertGrouped k p rest

/-- The grouping loop of `ArgosService.split_pods_by_resource`. -/
def groupPods (key : Pod → String) (pods : List Pod) :
    List (String × List Pod) :=
  pods.foldl (fun acc p => insertGrouped (key p) p acc) []

/-- `ArgosService.split_pods_by_resource` composed with the
`create_resource` factory, as invoked by `retrieve_telemetry_data`: one
resource per group, enumerated for the `id` field. -/
def split_pods_by_resource (resource_cls : String) (key : Pod → String)
    (pods : List Pod) (desired : List ℚ) : List GroupResource :=
  (groupPods key pods).enum.map
    (fun ikg => create_resource resource_cls ikg.2.1 ikg.2.2 ikg.1 desired)

/-- The grouping dispatch at the end of
`ArgosService.retrieve_telemetry_data`: `if applications:` group by the pod's
`app` into Applications, else group by the pod's `paas` into Clusters.  The
`applications` argument models the caller's filter; Python treats `None` and
the empty list alike as falsy. -/
def retrieve_grouping (applications : List String) (pods : List Pod)
    (desired : List ℚ) : List GroupResource :=
  if applications ≠ [] then
    split_pods_by_resource "Application" (·.app) pods desired
  else
    split_pods_by_resource "Cluster" (·.paas) pods desired

/-- The error codes of common/errors.py relevant to the claims. -/
inductive ErrorCode where
  | DATA_FETCH_NO_RESULTS
  | IF_EXECUTION_FAILED
  | COMPUTATION_FAILED
  deriving Repr, DecidableEq

/-- The post-alignment filter of `ArgosService.retrieve_telemetry_data`:
keep only pods for which all three series `requested_cpu`,
`requested_memory`, `cpu_util` are truthy, i.e. non-empty. -/
def filter_pods (pods : List Pod) : List Pod :=
  pods.filter
    (fun p => !p.requested_cpu.isEmpty && !p.requested_memory.isEmpty &&
      !p.cpu_util.isEmpty)

/-- The tail of `ArgosService.retrieve_telemetry_data` after the parsing
loop: filter the parsed pods, raise `DataFetchError(DATA_FETCH_NO_RESULTS)`
when no pod is left, and otherwise group the survivors. -/
def retrieve_telemetry_result (applications : List String)
    (interp_pod_telemetries : List Pod) (desired : List ℚ) :
    Except ErrorCode (List GroupResource) :=
  let pod_telemetries := filter_pods interp_pod_telemetries
  if pod_telemetries.isEmpty then .error .DATA_FETCH_NO_RESULTS
  else .ok (retrieve_grouping applications pod_telemetries desired)

/-- Fixture: a pod that reports `requested_cpu` and `cpu_util` but no
`requested_memory` series. -/
def podMissingMemory : Pod :=
  { id := "u1", app := "a", paas := "p", pod_namespace := "n",
    name := "pod1", requested_cpu := [1], cpu_util := [1] }

/-- Fixture: a pod parsed from a raw cpu_util series of two samples against a
desired grid of a single timestamp: the raw series is strictly longer than
the grid, so no interpolation is applied. -/
def podLongRawSeries : Pod :=
  parse_pod_cpu_util "u2" "a" "p" "n" "pod2" 0 1 [0] [(0, 1), (10, 2)]

/-- Fixture: first pod of the aggregation example (paas `paas1`). -/
def podAgg1 : Pod :=
  { id := "0", app := "app1", paas := "paas1", pod_namespace := "ns",
    name := "pod1", time_points := [0], cpu_util := [3 / 10],
    requested_cpu := [50], requested_memory := [0] }

/-- Fixture: second pod of the aggregation example (paas `paas1`). -/
def podAgg2 : Pod :=
  { id := "1", app := "app2", paas := "paas1", pod_namespace := "ns",
    name := "pod2", time_points := [0], cpu_util := [4 / 10],
    requested_cpu := [50], requested_memory := [50] }

/-- Fixture: third pod of the aggregation example (paas `paas2`). -/
def podAgg3 : Pod :=
  { id := "2", app := "app1", paas := "paas2", pod_namespace := "ns",
    name := "pod3", time_points := [0], cpu_util := [6 / 10],
    requested_cpu := [0], requested_memory := [50] }

/-! ## Evaluator output parsing (service/if_service.py) -/

/-- The exception payload of `KnownException` (common/known_exception.py):
an error code and a details string. -/
structure KnownExceptionData where
  error_code : ErrorCode
  details : String
  deriving Repr, DecidableEq

/-- Python's `round(x, 4)`: round half to even at four decimal places. -/
def pyRound4 (x : ℚ) : ℚ :=
  let y := x * 10000
  let f := ⌊y⌋
  let r := y - f
  (if r < 1 / 2 then (f : ℚ)
   else if 1 / 2 < r then (f : ℚ) + 1
   else if f % 2 = 0 then (f : ℚ) else (f : ℚ) + 1) / 10000

/-- Per-resource section of the evaluator's output tree: the aggregated
scalar per metric and the per-time-point output records. -/
structure ResourceOutput where
  aggregated : List (String × ℚ)
  outputs : List (List (String × ℚ))
  deriving Repr, DecidableEq

/-- The resource fields written by `MetricsMapper.map_metrics_to_resource`
(utils/metrics_mapper.py); pydantic defaults apply. -/
structure IFResource where
  id : String
  energy_consumed : List ℚ := []
  carbon_operational : List ℚ := []
  carbon_embodied : List ℚ := []
  carbon_emitted : List ℚ := []
  cpu_energy : List ℚ := []
  cpu_power : List ℚ := []
  requested_cpu : List ℚ := []
  memory_energy : List ℚ := []
  storage_energy : List ℚ := []
  storage_embodied : List ℚ := []
  total_energy_consumed : ℚ := 0
  total_carbon_operational : ℚ := 0
  total_carbon_embodied : ℚ := 0
  total_carbon_emitted : ℚ := 0
  total_cpu_energy : ℚ := 0
  total_memory_energy : ℚ := 0
  total_storage_energy : ℚ := 0
  total_storage_embodied : ℚ := 0
  deriving Repr, DecidableEq

/-- The keys of `MetricsMapper.METRICS_MAPPER`, in table order. -/
def METRICS_MAPPER_KEYS : List String :=
  ["carbon", "energy", "carbon-embodied", "carbon-operational", "cpu/energy",
   "cpu/power", "resources-reserved", "memory/energy", "storage/energy",
   "storage-embodied"]

/-- One `setattr` pair of `MetricsMapper.map_metrics_to_resource`: write the
observations to the mapped series field and, when the mapper has an
aggregated field for the metric (`cpu/power` and `resources-reserved` map
their aggregated value to `None`), the aggregated scalar to the mapped
total field. -/
def applyMetric (r : IFResource) (m : String) (agg : ℚ) (obs : List ℚ) :
    IFResource :=
  if m = "carbon" then
    { r with carbon_emitted := obs, total_carbon_emitted := agg }
  else if m = "energy" then
    { r with energy_consumed := obs, total_energy_consumed := agg }
  else if m = "carbon-embodied" then
    { r with carbon_embodied := obs, total_carbon_embodied := agg }
  else if m = "carbon-operational" then
    { r with carbon_operational := obs, total_carbon_operational := agg }
  else if m = "cpu/energy" then
    { r with cpu_energy := obs, total_cpu_energy := agg }
  else if m = "cpu/power" then { r with cpu_power := obs }
  else if m = "resources-reserved" then { r with requested_cpu := obs }
  else if m = "memory/energy" then
    { r with memory_energy := obs, total_memory_energy := agg }
  else if m = "storage/energy" then
    { r with storage_energy := obs, total_storage_energy := agg }
  else if m = "storage-embodied" then
    { r with storage_embodied := obs, total_storage_embodied := agg }
  else r

/-- `IFService.get_measurements_from_output` for one resource section:
for every aggregated metric, the rounded aggregated scalar and the rounded
observation series read from the per-time-point outputs (the evaluator's
contract is that each output record carries every aggregated metric). -/
def get_measurements_from_output (out : ResourceOutput) :
    List (String × (ℚ × List ℚ)) :=
  out.aggregated.map
    (fun mv => (mv.1,
      (pyRound4 mv.2,
       out.outputs.map (fun tp => pyRound4 ((dictGet mv.1 tp).getD 0)))))

/-- `MetricsMapper.map_metrics_to_resource`: iterate the mapper table in
order and write every metric present in the measurements onto the
resource. -/
def map_metrics_to_resource (metrics : List (String × (ℚ × List ℚ)))
    (r : IFResource) : IFResource :=
  METRICS_MAPPER_KEYS.foldl
    (fun acc m =>
      match dictGet m metrics with
      | some av => applyMetric acc m av.1 av.2
      | none => acc) r

/-- `IFService.aggregate_app_level`: write each resource's measurements from
its section of the output tree (keyed by resource id) back onto the
resource. -/
def aggregate_app_level (resources : List IFResource)
    (children : List (String × ResourceOutput)) : List IFResource :=
  resources.map
    (fun r =>
      map_metrics_to_resource
        (get_measurements_from_output ((dictGet r.id children).getD ⟨[], []⟩))
        r)

/-- The evaluator output file: the overall `execution.status` string and the
per-resource `tree.children` sections. -/
structure IFOutputFile where
  execution_status : String
  children : List (String × ResourceOutput)
  deriving Repr, DecidableEq

/-- `IFService.parse_if_output` (application-level mode): if the evaluator
reports a status other than `"success"`, raise
`KnownException(IF_EXECUTION_FAILED)` whose details name the chunk's file id,
before any measurement is read or written back; otherwise parse the output
tree back onto the resources. -/
def parse_if_output (resources : List IFResource) (if_output : IFOutputFile)
    (file_id : ℕ) : Except KnownExceptionData (List IFResource) :=
  if if_output.execution_status ≠ "success" then
    .error ⟨.IF_EXECUTION_FAILED,
      "IF has failed to calculate the carbon impact for file ID " ++
        toString file_id ++ "."⟩
  else .ok (aggregate_app_level resources if_output.children)

end Carmen

namespace Carmen

/-! ## Theorems -/

/-- Helper: the teads-curve tdp ratio at cpu utilization 0.3 (i.e. 30%) under
linear interpolation is exactly 0.535. -/
theorem tdpRatio_at_30pct : tdpRatio (3 / 10) = 107 / 200 := by
  norm_num [tdpRatio, np_interp, interpPoints, teads_x, teads_y,
    teadsCpuUtilization, min_def]

/-- C1 counterexample: at TDP 205 W, cpu_util 0.3 and duration 1800 s, the
claimed values tdp_ratio 0.5525, cpu_power 0.1133 kW, cpu_energy 0.0567 kWh
are NOT within 1e-3 of what the CPU chain computes (linear interpolation
gives tdp_ratio 0.535). -/
theorem C1_claimed_values_false :
    ¬ (|tdpRatio (3 / 10) - 5525 / 10000| ≤ 1 / 1000 ∧
       |cpuPowerOf (tdpRatio (3 / 10)) 205 - 1133 / 10000| ≤ 1 / 1000 ∧
       |cpuEnergyOf (cpuPowerOf (tdpRatio (3 / 10)) 205) 1800 - 567 / 10000| ≤
         1 / 1000) := by
  intro h
  rcases h with ⟨h1, -, -⟩
  rw [tdpRatio_at_30pct, abs_le] at h1
  norm_num at h1

/-- C1 (amended): for TDP 205 W and cpu_util 0.3, the CPU chain yields
tdp_ratio 0.535, cpu_power 0.1097 kW and, over 1800 s, cpu_energy
0.0548 kWh, each within 1e-3. -/
theorem C1_cpu_chain_amended :
    |tdpRatio (3 / 10) - 535 / 1000| ≤ 1 / 1000 ∧
    |cpuPowerOf (tdpRatio (3 / 10)) 205 - 1097 / 10000| ≤ 1 / 1000 ∧
    |cpuEnergyOf (cpuPowerOf (tdpRatio (3 / 10)) 205) 1800 - 548 / 10000| ≤
      1 / 1000 := by
  rw [tdpRatio_at_30pct]
  norm_num [cpuPowerOf, cpuEnergyOf, abs_le]

/-- C2: for every StorageResource, the storage power node computes
`(size_gb * replication_factor) * power_coefficient`, with replication factor
LRS/ZRS = 3, GRS/RA_GRS/GZRS/RA_GZRS = 6, default 1, applied to the size
before the power computation, and the power coefficient looked up by storage
type: SSD = 1.2e-6, HDD = 6.5e-7, any other type = 9.25e-7 kW/GB. -/
theorem C2_storage_power_formula (r : StorageResource) :
    storagePower r =
      (r.size_gb *
        (if r.replication_type.toUpper = "LRS" ∨ r.replication_type.toUpper = "ZRS"
         then 3
         else if r.replication_type.toUpper = "GRS" ∨
              r.replication_type.toUpper = "RA_GRS" ∨
              r.replication_type.toUpper = "GZRS" ∨
              r.replication_type.toUpper = "RA_GZRS"
         then 6 else 1)) *
      (if r.storage_type.toUpper = "SSD" then 12 / 10 ^ 7
       else if r.storage_type.toUpper = "HDD" then 65 / 10 ^ 8
       else 925 / 10 ^ 9) := by
  unfold storagePower multiplyBuiltin pStorageFillInputs
    storageReplicationFactorFor storagePowerCoefficientFor
  simp only [STORAGE_REPLICATION_FACTORS, STORAGE_POWER_COEFFICIENT_MAPPING,
    dictGet]
  by_cases h1 : r.replication_type.toUpper = "LRS" <;>
    by_cases h2 : r.replication_type.toUpper = "ZRS" <;>
    by_cases h3 : r.replication_type.toUpper = "GRS" <;>
    by_cases h4 : r.replication_type.toUpper = "RA_GRS" <;>
    by_cases h5 : r.replication_type.toUpper = "GZRS" <;>
    by_cases h6 : r.replication_type.toUpper = "RA_GZRS" <;>
    by_cases h7 : r.storage_type.toUpper = "SSD" <;>
    by_cases h8 : r.storage_type.toUpper = "HDD" <;>
    by_cases h9 : r.storage_type.toUpper = "UNKNOWN" <;>
    simp_all

/-- C8: the carbon-intensity lookup evaluated at the failing input
`"francesouth"`: the region is present in the table, but its entry stores the
value 44 under the key `"carbon"` instead of `"carbon_intensity"`, so the
lookup raises a KeyError instead of returning 44; for regions in the table
with the proper key it returns the tabulated value, and for unrecognized
regions it returns the European average 281. -/
theorem C8_calculate_ci_francesouth_keyerror :
    calculate_ci "francesouth" = .error "KeyError: carbon_intensity" ∧
    calculate_ci "eastus" = .ok 384 ∧
    calculate_ci "not-a-region" = .ok 281 := by
  refine ⟨rfl, rfl, rfl⟩

/-! ### Chunked executor lemmas -/

/-- Helper: the chunks cover the whole list: `numChunks cs n * cs ≥ n`. -/
theorem le_numChunks_mul (cs n : ℕ) (hcs : 0 < cs) : n ≤ numChunks cs n * cs := by
  have h := Nat.lt_div_mul_add (a := n + cs - 1) hcs
  unfold numChunks
  set A := (n + cs - 1) / cs * cs with hA
  clear hA
  omega

/-- Helper: a valid chunk index starts strictly inside the list. -/
theorem chunk_start_lt (cs n k : ℕ) (hcs : 0 < cs) (hk : k < numChunks cs n) :
    k * cs < n := by
  have h2 : (k + 1) * cs ≤ n + cs - 1 := (Nat.le_div_iff_mul_le hcs).mp hk
  rw [Nat.succ_mul] at h2
  set A := k * cs with hA
  clear hA
  omega

/-- Helper: length of a chunk. -/
theorem getChunk_length {α : Type} (l : List α) (cs k : ℕ) :
    (getChunk l cs k).length = min cs (l.length - k * cs) := by
  simp [getChunk]

/-- Helper: entries of a chunk come from the original list at the chunk's
offset. -/
theorem getChunk_getElem? {α : Type} (l : List α) (cs k j : ℕ) (hj : j < cs) :
    (getChunk l cs k)[j]? = l[k * cs + j]? := by
  simp [getChunk, List.getElem?_take_of_lt hj, List.getElem?_drop]

/-- Helper: the write-back step preserves the length of the result list. -/
theorem writeChunk_length {α : Type} (f : α → α) (l : List α) (cs : ℕ)
    (hcs : 0 < cs) (acc : List α) (k : ℕ) (hacc : acc.length = l.length)
    (hk : k < numChunks cs l.length) :
    (writeChunk f l cs acc k).length = l.length := by
  have hstart := chunk_start_lt cs l.length k hcs hk
  simp only [writeChunk, List.length_append, List.length_take,
    List.length_drop, List.length_map, getChunk_length]
  set A := k * cs with hA
  clear hA
  omega

/-- Helper: the write-back of chunk `k` sets exactly the positions whose
index has quotient `k` by the chunk size, to the processed value from the
original list, and leaves every other position untouched. -/
theorem writeChunk_getElem? {α : Type} (f : α → α) (l : List α) (cs : ℕ)
    (hcs : 0 < cs) (acc : List α) (k : ℕ) (hacc : acc.length = l.length)
    (hk : k < numChunks cs l.length) (i : ℕ) (hi : i < l.length) :
    (writeChunk f l cs acc k)[i]? =
      if i / cs = k then (l.map f)[i]? else acc[i]? := by
  have hstart : k * cs < l.length := chunk_start_lt cs l.length k hcs hk
  have htake : (acc.take (k * cs)).length = k * cs := by
    rw [List.length_take]
    exact Nat.min_eq_left (by rw [hacc]; exact hstart.le)
  have hclen : ((getChunk l cs k).map f).length = min cs (l.length - k * cs) := by
    rw [List.length_map, getChunk_length]
  simp only [writeChunk]
  rcases Nat.lt_or_ge i (k * cs) with hA | hA
  · have h1 : i < (acc.take (k * cs) ++ (getChunk l cs k).map f).length := by
      rw [List.length_append, htake]
      exact lt_of_lt_of_le hA (Nat.le_add_right _ _)
    rw [List.getElem?_append_left h1,
      List.getElem?_append_left (by rw [htake]; exact hA),
      List.getElem?_take_of_lt hA]
    rw [if_neg]
    intro hdiv
    rw [← hdiv] at hA
    exact absurd ((Nat.div_lt_iff_lt_mul hcs).mpr hA) (lt_irrefl _)
  · rcases Nat.lt_or_ge i (k * cs + ((getChunk l cs k).map f).length) with hB | hC
    · have h1 : i < (acc.take (k * cs) ++ (getChunk l cs k).map f).length := by
        rw [List.length_append, htake]; exact hB
      rw [List.getElem?_append_left h1,
        List.getElem?_append_right (by rw [htake]; exact hA), htake,
        List.getElem?_map, getChunk_getElem? l cs k (i - k * cs)
          (by rw [hclen] at hB; have := Nat.min_le_left cs (l.length - k * cs); omega),
        Nat.add_sub_cancel' hA, ← List.getElem?_map]
      rw [if_pos]
      refine Nat.div_eq_of_lt_le hA ?_
      rw [Nat.succ_mul]
      rw [hclen] at hB
      have := Nat.min_le_left cs (l.length - k * cs)
      omega
    · have h1 : (acc.take (k * cs) ++ (getChunk l cs k).map f).length ≤ i := by
        rw [List.length_append, htake]; exact hC
      rw [List.getElem?_append_right h1, List.getElem?_drop,
        List.length_append, htake]
      have heq : k * cs + ((getChunk l cs k).map f).length +
          (i - (k * cs + ((getChunk l cs k).map f).length)) = i :=
        Nat.add_sub_cancel' hC
      rw [heq]
      rw [if_neg]
      intro hdiv
      have hcsfull : ((getChunk l cs k).map f).length = cs := by
        rw [hclen]
        rcases Nat.le_total cs (l.length - k * cs) with h | h
        · exact Nat.min_eq_left h
        · rw [Nat.min_eq_right h] at hclen
          rw [hclen] at hC
          omega
      rw [hcsfull] at hC
      have : k + 1 ≤ i / cs := by
        rw [Nat.le_div_iff_mul_le hcs, Nat.succ_mul]
        exact hC
      omega

/-- Helper: after folding the write-backs of the chunks listed in `order`
over an accumulator of the right length, a position holds the processed value
exactly when its chunk index occurs in `order`. -/
theorem foldl_writeChunk_getElem? {α : Type} (f : α → α) (l : List α)
    (cs : ℕ) (hcs : 0 < cs) :
    ∀ (order : List ℕ) (acc : List α), acc.length = l.length →
      (∀ k ∈ order, k < numChunks cs l.length) →
      ∀ i, i < l.length →
        (order.foldl (writeChunk f l cs) acc)[i]? =
          if i / cs ∈ order then (l.map f)[i]? else acc[i]?
  | [], acc, hacc, _, i, hi => by simp
  | k :: rest, acc, hacc, hvalid, i, hi => by
      have hk := hvalid k (List.mem_cons_self k rest)
      have hrest : ∀ k' ∈ rest, k' < numChunks cs l.length :=
        fun k' hk' => hvalid k' (List.mem_cons_of_mem _ hk')
      rw [List.foldl_cons,
        foldl_writeChunk_getElem? f l cs hcs rest _
          (writeChunk_length f l cs hcs acc k hacc hk) hrest i hi]
      by_cases hmem : i / cs ∈ rest
      · rw [if_pos hmem, if_pos (List.mem_cons_of_mem _ hmem)]
      · rw [if_neg hmem,
          writeChunk_getElem? f l cs hcs acc k hacc hk i hi]
        by_cases hik : i / cs = k
        · rw [if_pos hik, if_pos (by rw [hik]; exact List.mem_cons_self k rest)]
        · rw [if_neg hik, if_neg (by simp [hik, hmem])]

/-- Helper: the folded write-backs preserve the length of the result list. -/
theorem foldl_writeChunk_length {α : Type} (f : α → α) (l : List α)
    (cs : ℕ) (hcs : 0 < cs) :
    ∀ (order : List ℕ) (acc : List α), acc.length = l.length →
      (∀ k ∈ order, k < numChunks cs l.length) →
      (order.foldl (writeChunk f l cs) acc).length = l.length
  | [], acc, hacc, _ => hacc
  | k :: rest, acc, hacc, hvalid => by
      rw [List.foldl_cons]
      exact foldl_writeChunk_length f l cs hcs rest _
        (writeChunk_length f l cs hcs acc k hacc
          (hvalid k (List.mem_cons_self k rest)))
        (fun k' hk' => hvalid k' (List.mem_cons_of_mem _ hk'))

/-- C7: for every non-empty input list and every completion order of the
chunks (any permutation of the chunk indices), the chunked `run_engine`
returns the list whose element at index `i` is the processed version of the
input element at index `i` — chunk `k`'s `j`-th result lands at offset
`k * chunk_size + j` — so the output order equals the input order. -/
theorem C7_run_engine_preserves_order {α : Type} (f : α → α)
    (profile_chunk_size : ℕ) (l : List α) (order : List ℕ)
    (hpcs : 0 < profile_chunk_size) (hne : l ≠ [])
    (hperm : order.Perm
      (List.range (numChunks (min profile_chunk_size l.length) l.length))) :
    run_engine_chunked f profile_chunk_size l order = .ok (l.map f) := by
  have hn : 0 < l.length := List.length_pos.mpr hne
  have hcs : 0 < min profile_chunk_size l.length := lt_min hpcs hn
  unfold run_engine_chunked
  rw [if_neg hcs.ne']
  congr 1
  set cs := min profile_chunk_size l.length with hcsdef
  have hvalid : ∀ k ∈ order, k < numChunks cs l.length := fun k hk =>
    List.mem_range.mp (hperm.mem_iff.mp hk)
  apply List.ext_getElem?
  intro i
  by_cases hi : i < l.length
  · rw [foldl_writeChunk_getElem? f l cs hcs order l rfl hvalid i hi]
    have hdivmem : i / cs ∈ order := by
      rw [hperm.mem_iff, List.mem_range]
      rw [Nat.div_lt_iff_lt_mul hcs]
      exact lt_of_lt_of_le hi (le_numChunks_mul cs l.length hcs)
    rw [if_pos hdivmem]
  · rw [List.getElem?_eq_none (by
        rw [foldl_writeChunk_length f l cs hcs order l rfl hvalid]; omega),
      List.getElem?_eq_none (by rw [List.length_map]; omega)]

/-- C7 witness: three resources, chunk size 2, chunks completing in reverse
order still yield the input order with every element processed. -/
theorem C7_run_engine_preserves_order_witness :
    (0 : ℕ) < 2 ∧ ([1, 2, 3] : List ℕ) ≠ [] ∧
    ([1, 0] : List ℕ).Perm (List.range (numChunks (min 2 3) 3)) ∧
    run_engine_chunked (fun x => x + 10) 2 ([1, 2, 3] : List ℕ) [1, 0] =
      .ok [11, 12, 13] :=
  ⟨by decide, by decide, by decide,
    C7_run_engine_preserves_order (fun x => x + 10) 2 [1, 2, 3] [1, 0]
      (by decide) (by decide) (by decide)⟩

/-- C10: on the empty resource list, the chunked `run_engine` of both
profiles raises (the chunk size is clamped to `min(profile_chunk_size, 0)`
`= 0` and `range(0, 0, 0)` is a `ValueError`) instead of returning an empty
list, for any profile chunk size and any completion order — in particular the
evaluator round trip `f` is never invoked. -/
theorem C10_run_engine_empty_raises {α : Type} (f : α → α)
    (profile_chunk_size : ℕ) (order : List ℕ) :
    run_engine_chunked f profile_chunk_size ([] : List α) order =
      .error "ValueError: range() arg 3 must not be zero" := by
  simp [run_engine_chunked]

/-! ### Aligner lemmas -/

/-- Helper: `np.interp` over exactly two control points. -/
theorem np_interp_two (x x1 x2 y1 y2 : ℚ) :
    np_interp x [x1, x2] [y1, y2] =
      if x ≤ x1 then y1
      else if x ≤ x2 then y1 + (x - x1) * (y2 - y1) / (x2 - x1)
      else y2 := by
  simp [np_interp, interpPoints]

/-- C3: whenever the raw series is shorter than the desired grid, alignment
is linear interpolation of the raw pairs at the desired timestamps shifted
by +1 hour; in particular, for a uniform desired grid `[t0, t0+h, t0+2h]`
and raw samples at `[t0+1h, t0+2h+1h]` with values `[1, 3]`, the aligned
series is `[1, 2, 3]`. -/
theorem C3_interpolation_alignment (t0 h : ℚ) (hpos : 0 < h) :
    (∀ desired pod_ts values : List ℚ, pod_ts.length < desired.length →
      alignValues desired pod_ts values =
        desired.map (fun t => np_interp (t + 3600) pod_ts values)) ∧
    alignValues [t0, t0 + h, t0 + 2 * h] [t0 + 3600, t0 + 2 * h + 3600]
      [1, 3] = [1, 2, 3] := by
  constructor
  · intro d p v hlt
    simp [alignValues, interpolate_field_data, hlt]
  · have h2 : (2 : ℚ) * h ≠ 0 := by positivity
    have k1 : np_interp (t0 + 3600) [t0 + 3600, t0 + 2 * h + 3600] [1, 3] =
        1 := by
      rw [np_interp_two, if_pos (le_refl _)]
    have k2 : np_interp (t0 + h + 3600) [t0 + 3600, t0 + 2 * h + 3600]
        [1, 3] = 2 := by
      rw [np_interp_two, if_neg (by linarith), if_pos (by linarith)]
      have hd : t0 + 2 * h + 3600 - (t0 + 3600) = 2 * h := by ring
      have hn : t0 + h + 3600 - (t0 + 3600) = h := by ring
      rw [hd, hn]
      field_simp
      ring
    have k3 : np_interp (t0 + 2 * h + 3600) [t0 + 3600, t0 + 2 * h + 3600]
        [1, 3] = 3 := by
      rw [np_interp_two, if_neg (by linarith), if_pos (le_refl _)]
      have hd : t0 + 2 * h + 3600 - (t0 + 3600) = 2 * h := by ring
      rw [hd]
      field_simp
    simp [alignValues, interpolate_field_data, k1, k2, k3]

/-- C3 witness: the boundary example at `t0 = 0`, `h = 1800` (a 30-minute
grid). -/
theorem C3_interpolation_alignment_witness :
    (0 : ℚ) < 1800 ∧
    alignValues [0, 1800, 3600] [3600, 7200] [1, 3] = [1, 2, 3] := by
  refine ⟨by norm_num, ?_⟩
  have h := (C3_interpolation_alignment 0 1800 (by norm_num)).2
  norm_num at h
  exact h

/-- C5: a pod survives the post-alignment filter exactly when all three of
its `requested_cpu`, `requested_memory`, `cpu_util` series are non-empty
(a pod missing even one is excluded, not zero-filled); when the filter
leaves no pod, `retrieve_telemetry_data` raises the distinct
`DATA_FETCH_NO_RESULTS` no-data error, and otherwise it returns the grouped
survivors normally. -/
theorem C5_filter_and_no_data (applications : List String) (pods : List Pod)
    (desired : List ℚ) :
    (∀ p, p ∈ filter_pods pods ↔
      p ∈ pods ∧ p.requested_cpu ≠ [] ∧ p.requested_memory ≠ [] ∧
        p.cpu_util ≠ []) ∧
    (filter_pods pods = [] →
      retrieve_telemetry_result applications pods desired =
        .error .DATA_FETCH_NO_RESULTS) ∧
    (filter_pods pods ≠ [] →
      retrieve_telemetry_result applications pods desired =
        .ok (retrieve_grouping applications (filter_pods pods) desired)) := by
  refine ⟨?_, ?_, ?_⟩
  · intro p
    simp [filter_pods, List.mem_filter, and_assoc]
  · intro hempty
    simp [retrieve_telemetry_result, hempty]
  · intro hne
    simp only [retrieve_telemetry_result]
    rw [if_neg (by simpa [List.isEmpty_iff] using hne)]

/-- C5 witness: a pod missing only `requested_memory` is dropped, and since
it was the only pod the call reports the no-data error. -/
theorem C5_filter_and_no_data_witness :
    filter_pods [podMissingMemory] = [] ∧
    retrieve_telemetry_result [] [podMissingMemory] [0] =
      .error .DATA_FETCH_NO_RESULTS :=
  ⟨by decide,
    (C5_filter_and_no_data [] [podMissingMemory] [0]).2.1 (by decide)⟩

/-- C6: whenever the evaluator output of a chunk reports an execution status
other than `"success"`, parsing raises the fatal `IF_EXECUTION_FAILED`
computation error whose message names the chunk's file id, and no resource
list is returned — no metric is written back, for any resources and any
output tree content. -/
theorem C6_parse_if_output_failure (resources : List IFResource)
    (if_output : IFOutputFile) (file_id : ℕ)
    (h : if_output.execution_status ≠ "success") :
    parse_if_output resources if_output file_id =
      .error ⟨.IF_EXECUTION_FAILED,
        "IF has failed to calculate the carbon impact for file ID " ++
          toString file_id ++ "."⟩ ∧
    ∀ rs, parse_if_output resources if_output file_id ≠ .ok rs := by
  constructor
  · simp [parse_if_output, h]
  · intro rs hc
    simp [parse_if_output, h] at hc

/-- C6 witness: a failed chunk with file id 7 produces the error naming
file ID 7 even though its output tree carries data for the resource. -/
theorem C6_parse_if_output_failure_witness :
    ("failed" ≠ "success") ∧
    parse_if_output [{ id := "r1" }]
      ⟨"failed", [("r1", ⟨[("carbon", 5)], [[("carbon", 5)]]⟩)]⟩ 7 =
      .error ⟨.IF_EXECUTION_FAILED,
        "IF has failed to calculate the carbon impact for file ID 7."⟩ :=
  ⟨by decide,
    (C6_parse_if_output_failure [{ id := "r1" }]
      ⟨"failed", [("r1", ⟨[("carbon", 5)], [[("carbon", 5)]]⟩)]⟩ 7
      (by decide)).1⟩

/-! ### Aggregation lemmas -/

/-- Helper: folding `zipWith (+)` over rows of equal length preserves the
length. -/
theorem foldl_zipWith_add_length :
    ∀ (rs : List (List ℚ)) (r : List ℚ), (∀ x ∈ rs, x.length = r.length) →
      (rs.foldl (List.zipWith (· + ·)) r).length = r.length
  | [], _, _ => rfl
  | x :: rest, r, hl => by
      rw [List.foldl_cons]
      have hx : x.length = r.length := hl x (List.mem_cons_self _ _)
      have hzip : (List.zipWith (· + ·) r x).length = r.length := by
        rw [List.length_zipWith, hx, Nat.min_self]
      rw [foldl_zipWith_add_length rest _
        (fun y hy => (hl y (List.mem_cons_of_mem _ hy)).trans hzip.symm), hzip]

/-- Helper: entry `i` of the `zipWith (+)` fold is the sum of the rows'
entries `i`. -/
theorem foldl_zipWith_add_getElem? :
    ∀ (rs : List (List ℚ)) (r : List ℚ), (∀ x ∈ rs, x.length = r.length) →
      ∀ i, i < r.length →
      (rs.foldl (List.zipWith (· + ·)) r)[i]? =
        some (r.getD i 0 + (rs.map (fun x => x.getD i 0)).sum)
  | [], r, _, i, hi => by
      rw [List.foldl_nil, List.getElem?_eq_getElem hi,
        List.getD_eq_getElem r 0 hi]
      simp
  | x :: rest, r, hl, i, hi => by
      rw [List.foldl_cons]
      have hx : x.length = r.length := hl x (List.mem_cons_self _ _)
      have hzlen : (List.zipWith (· + ·) r x).length = r.length := by
        rw [List.length_zipWith, hx, Nat.min_self]
      rw [foldl_zipWith_add_getElem? rest _
        (fun y hy => (hl y (List.mem_cons_of_mem _ hy)).trans hzlen.symm) i
        (by rw [hzlen]; exact hi)]
      have hz : (List.zipWith (· + ·) r x).getD i 0 =
          r.getD i 0 + x.getD i 0 := by
        have h1 : i < (List.zipWith (· + ·) r x).length := by
          rw [hzlen]; exact hi
        rw [List.getD_eq_getElem _ 0 h1, List.getElem_zipWith,
          List.getD_eq_getElem r 0 hi,
          List.getD_eq_getElem x 0 (by rw [hx]; exact hi)]
      rw [hz, List.map_cons, List.sum_cons, add_assoc]

/-- Helper: length of the elementwise sum of a non-empty batch of
equal-length rows. -/
theorem npSumAxis0_length (rows : List (List ℚ)) (m : ℕ) (hne : rows ≠ [])
    (hlen : ∀ x ∈ rows, x.length = m) : (npSumAxis0 rows).length = m := by
  match rows, hne with
  | r :: rs, _ =>
    have hr : r.length = m := hlen r (List.mem_cons_self _ _)
    show (rs.foldl (List.zipWith (· + ·)) r).length = m
    rw [foldl_zipWith_add_length rs r
      (fun x hx => (hlen x (List.mem_cons_of_mem _ hx)).trans hr.symm), hr]

/-- Helper: entry `i` of `npSumAxis0` is the sum of the rows' entries `i`. -/
theorem npSumAxis0_getElem? (rows : List (List ℚ)) (m : ℕ) (hne : rows ≠ [])
    (hlen : ∀ x ∈ rows, x.length = m) (i : ℕ) (hi : i < m) :
    (npSumAxis0 rows)[i]? = some ((rows.map (fun x => x.getD i 0)).sum) := by
  match rows, hne with
  | r :: rs, _ =>
    have hr : r.length = m := hlen r (List.mem_cons_self _ _)
    show (rs.foldl (List.zipWith (· + ·)) r)[i]? = _
    rw [foldl_zipWith_add_getElem? rs r
      (fun x hx => (hlen x (List.mem_cons_of_mem _ hx)).trans hr.symm) i
      (by rw [hr]; exact hi), List.map_cons, List.sum_cons]

/-- Helper: entry `i` of `npMeanAxis0` is the elementwise sum divided by the
number of rows. -/
theorem npMeanAxis0_getElem? (rows : List (List ℚ)) (m : ℕ) (hne : rows ≠ [])
    (hlen : ∀ x ∈ rows, x.length = m) (i : ℕ) (hi : i < m) :
    (npMeanAxis0 rows)[i]? =
      some ((rows.map (fun x => x.getD i 0)).sum / (rows.length : ℚ)) := by
  rw [npMeanAxis0, List.getElem?_map,
    npSumAxis0_getElem? rows m hne hlen i hi]
  rfl

/-- Helper: an element of `insertGrouped k p acc` is either an untouched
element of `acc`, or carries key `k` and consists of a (possibly empty)
previous group for `k` with `p` appended. -/
theorem mem_insertGrouped (k : String) (p : Pod) :
    ∀ (acc : List (String × List Pod)) (kg : String × List Pod),
      kg ∈ insertGrouped k p acc →
      kg ∈ acc ∨
        (kg.1 = k ∧ ∃ ps, kg.2 = ps ++ [p] ∧ (ps = [] ∨ (k, ps) ∈ acc))
  | [], kg, h => by
      simp only [insertGrouped, List.mem_singleton] at h
      exact Or.inr ⟨by rw [h], [], by rw [h]; simp, Or.inl rfl⟩
  | (k', ps) :: rest, kg, h => by
      rw [insertGrouped] at h
      split_ifs at h with hk
      · rcases List.mem_cons.mp h with h1 | h1
        · refine Or.inr ⟨by rw [h1, hk], ps, by rw [h1], Or.inr ?_⟩
          rw [← hk]
          exact List.mem_cons_self _ _
        · exact Or.inl (List.mem_cons_of_mem _ h1)
      · rcases List.mem_cons.mp h with h1 | h1
        · exact Or.inl (h1 ▸ List.mem_cons_self _ _)
        · rcases mem_insertGrouped k p rest kg h1 with h2 | h2
          · exact Or.inl (List.mem_cons_of_mem _ h2)
          · rcases h2 with ⟨hkg, ps', hps', hor⟩
            exact Or.inr ⟨hkg, ps', hps',
              hor.imp id (List.mem_cons_of_mem _)⟩

/-- Helper: the grouping fold preserves the invariant that every group is
non-empty and that every pod in a group carries the group's key and
satisfies `Q`. -/
theorem groupPods_invariant (key : Pod → String) (Q : Pod → Prop) :
    ∀ (pods : List Pod) (acc : List (String × List Pod)),
      (∀ kg ∈ acc, kg.2 ≠ [] ∧ ∀ p ∈ kg.2, key p = kg.1 ∧ Q p) →
      (∀ p ∈ pods, Q p) →
      ∀ kg ∈ pods.foldl (fun a p => insertGrouped (key p) p a) acc,
        kg.2 ≠ [] ∧ ∀ p ∈ kg.2, key p = kg.1 ∧ Q p
  | [], _, hacc, _, kg, h => hacc kg h
  | p0 :: rest, acc, hacc, hQ, kg, h => by
      rw [List.foldl_cons] at h
      refine groupPods_invariant key Q rest _ ?_
        (fun p hp => hQ p (List.mem_cons_of_mem _ hp)) kg h
      intro kg' hkg'
      rcases mem_insertGrouped (key p0) p0 acc kg' hkg' with h1 | h1
      · exact hacc kg' h1
      · rcases h1 with ⟨hk1, ps, hps, hor⟩
        constructor
        · rw [hps]; simp
        · intro q hq
          rw [hps] at hq
          rcases List.mem_append.mp hq with hq1 | hq1
          · rcases hor with hor | hor
            · rw [hor] at hq1
              exact absurd hq1 (List.not_mem_nil q)
            · have h3 := (hacc (key p0, ps) hor).2 q hq1
              exact ⟨h3.1.trans hk1.symm, h3.2⟩
          · rw [List.mem_singleton.mp hq1]
            exact ⟨hk1.symm, hQ p0 (List.mem_cons_self _ _)⟩

/-- Helper: every group produced by `groupPods` is non-empty and consists of
pods carrying the group's key and satisfying `Q`. -/
theorem groupPods_spec (key : Pod → String) (Q : Pod → Prop)
    (pods : List Pod) (hQ : ∀ p ∈ pods, Q p) :
    ∀ kg ∈ groupPods key pods, kg.2 ≠ [] ∧ ∀ p ∈ kg.2, key p = kg.1 ∧ Q p :=
  groupPods_invariant key Q pods [] (by simp) hQ

/-- Helper: every resource produced by `split_pods_by_resource` owns a
non-empty group of input pods sharing the resource's name as key, and its
series are the elementwise sum (requested cpu and memory) and elementwise
mean (cpu utilization) over its pods. -/
theorem split_pods_spec (cls : String) (key : Pod → String)
    (pods : List Pod) (desired : List ℚ) (m : ℕ)
    (hlen : ∀ p ∈ pods, p.requested_cpu.length = m ∧
      p.requested_memory.length = m ∧ p.cpu_util.length = m) :
    ∀ r ∈ split_pods_by_resource cls key pods desired,
      r.resource_cls = cls ∧ r.pods ≠ [] ∧
      (∀ p ∈ r.pods, p ∈ pods ∧ key p = r.name) ∧
      ∀ i, i < m →
        r.requested_cpu[i]? =
          some ((r.pods.map (fun p => p.requested_cpu.getD i 0)).sum) ∧
        r.requested_memory[i]? =
          some ((r.pods.map (fun p => p.requested_memory.getD i 0)).sum) ∧
        r.cpu_util[i]? =
          some ((r.pods.map (fun p => p.cpu_util.getD i 0)).sum /
            (r.pods.length : ℚ)) := by
  intro r hr
  obtain ⟨ikg, hmem, rfl⟩ := List.mem_map.mp hr
  have hkg : ikg.2 ∈ groupPods key pods :=
    List.getElem?_mem (List.mem_enum_iff_getElem?.mp hmem)
  have hspec := groupPods_spec key
    (fun p => p ∈ pods ∧ p.requested_cpu.length = m ∧
      p.requested_memory.length = m ∧ p.cpu_util.length = m)
    pods (fun p hp => ⟨hp, hlen p hp⟩) ikg.2 hkg
  obtain ⟨hne, hmem2⟩ := hspec
  have hrowsne : ikg.2.2.map (fun p : Pod => p.requested_cpu) ≠ [] := by
    simpa using hne
  have hrowsne2 : ikg.2.2.map (fun p : Pod => p.requested_memory) ≠ [] := by
    simpa using hne
  have hrowsne3 : ikg.2.2.map (fun p : Pod => p.cpu_util) ≠ [] := by
    simpa using hne
  refine ⟨rfl, hne, fun p hp => ⟨(hmem2 p hp).2.1, (hmem2 p hp).1⟩, ?_⟩
  intro i hi
  refine ⟨?_, ?_, ?_⟩
  · show (npSumAxis0 (ikg.2.2.map (fun p : Pod => p.requested_cpu)))[i]? = _
    rw [npSumAxis0_getElem? _ m hrowsne
      (by rintro x hx
          obtain ⟨p, hp, rfl⟩ := List.mem_map.mp hx
          exact (hmem2 p hp).2.2.1) i hi, List.map_map]
    rfl
  · show (npSumAxis0 (ikg.2.2.map (fun p : Pod => p.requested_memory)))[i]? = _
    rw [npSumAxis0_getElem? _ m hrowsne2
      (by rintro x hx
          obtain ⟨p, hp, rfl⟩ := List.mem_map.mp hx
          exact (hmem2 p hp).2.2.2.1) i hi, List.map_map]
    rfl
  · show (npMeanAxis0 (ikg.2.2.map (fun p : Pod => p.cpu_util)))[i]? = _
    rw [npMeanAxis0_getElem? _ m hrowsne3
      (by rintro x hx
          obtain ⟨p, hp, rfl⟩ := List.mem_map.mp hx
          exact (hmem2 p hp).2.2.2.2) i hi, List.map_map,
      List.length_map]
    rfl

/-- C4: after alignment, pods are grouped by `app` into Applications when an
applications filter was supplied and by `paas` into Clusters otherwise, and
each group resource's `requested_cpu` and `requested_memory` are the
elementwise sum over its pods while its `cpu_util` is the elementwise
mean. -/
theorem C4_grouping_and_aggregation (applications : List String)
    (pods : List Pod) (desired : List ℚ) (m : ℕ)
    (hlen : ∀ p ∈ pods, p.requested_cpu.length = m ∧
      p.requested_memory.length = m ∧ p.cpu_util.length = m) :
    ∀ r ∈ retrieve_grouping applications pods desired,
      (r.resource_cls =
        if applications ≠ [] then "Application" else "Cluster") ∧
      r.pods ≠ [] ∧
      (∀ p ∈ r.pods, p ∈ pods ∧
        (if applications ≠ [] then p.app else p.paas) = r.name) ∧
      ∀ i, i < m →
        r.requested_cpu[i]? =
          some ((r.pods.map (fun p => p.requested_cpu.getD i 0)).sum) ∧
        r.requested_memory[i]? =
          some ((r.pods.map (fun p => p.requested_memory.getD i 0)).sum) ∧
        r.cpu_util[i]? =
          some ((r.pods.map (fun p => p.cpu_util.getD i 0)).sum /
            (r.pods.length : ℚ)) := by
  intro r hr
  rw [retrieve_grouping] at hr
  split_ifs at hr with happ
  · have h := split_pods_spec "Application" (·.app) pods desired m hlen r hr
    simp only [if_pos happ]
    exact h
  · have h := split_pods_spec "Cluster" (·.paas) pods desired m hlen r hr
    simp only [if_neg happ]
    exact h

/-- C4 witness: the spec's aggregation example, grouped by `paas` because no
applications filter was supplied: `paas1` owns two pods and `paas2` one. -/
theorem C4_grouping_and_aggregation_witness :
    (∀ p ∈ [podAgg1, podAgg2, podAgg3], p.requested_cpu.length = 1 ∧
      p.requested_memory.length = 1 ∧ p.cpu_util.length = 1) ∧
    ∀ r ∈ retrieve_grouping [] [podAgg1, podAgg2, podAgg3] [0],
      (r.resource_cls = if ([] : List String) ≠ [] then "Application"
        else "Cluster") ∧
      r.pods ≠ [] ∧
      (∀ p ∈ r.pods, p ∈ [podAgg1, podAgg2, podAgg3] ∧
        (if ([] : List String) ≠ [] then p.app else p.paas) = r.name) ∧
      ∀ i, i < 1 →
        r.requested_cpu[i]? =
          some ((r.pods.map (fun p => p.requested_cpu.getD i 0)).sum) ∧
        r.requested_memory[i]? =
          some ((r.pods.map (fun p => p.requested_memory.getD i 0)).sum) ∧
        r.cpu_util[i]? =
          some ((r.pods.map (fun p => p.cpu_util.getD i 0)).sum /
            (r.pods.length : ℚ)) :=
  ⟨by decide,
    C4_grouping_and_aggregation [] [podAgg1, podAgg2, podAgg3] [0] 1
      (by decide)⟩

/-- C9 counterexample: a pod whose raw series is strictly longer (2 samples)
than the desired grid (1 timestamp) keeps the raw series without
interpolation, so its `cpu_util` length (2) equals neither
`len(time_points)` (1) nor 0 — the invariant fails for "at least as long"
raw series. -/
theorem C9_invariant_counterexample :
    podLongRawSeries.cpu_util.length ≠ podLongRawSeries.time_points.length ∧
    podLongRawSeries.cpu_util.length ≠ 0 := by
  constructor <;> decide

/-- C9 (amended): every per-time-point array has length `len(time_points)`
(or 0 when not yet computed) provided every raw series is at most as long as
the desired grid: a shorter raw series is interpolated to grid length and an
equal-length one is kept as is; this extends to the aggregated Application
and Cluster series. -/
theorem C9_lengths_amended (desired pod_ts values : List ℚ)
    (h1 : pod_ts.length = values.length)
    (h2 : pod_ts.length ≤ desired.length) :
    (alignValues desired pod_ts values).length = desired.length ∧
    ∀ (cls resource_key : String) (pods : List Pod) (idx : ℕ), pods ≠ [] →
      (∀ p ∈ pods, p.requested_cpu.length = desired.length ∧
        p.requested_memory.length = desired.length ∧
        p.cpu_util.length = desired.length) →
      (create_resource cls resource_key pods idx desired).time_points =
        desired ∧
      (create_resource cls resource_key pods idx
        desired).requested_cpu.length = desired.length ∧
      (create_resource cls resource_key pods idx
        desired).requested_memory.length = desired.length ∧
      (create_resource cls resource_key pods idx
        desired).cpu_util.length = desired.length := by
  constructor
  · rw [alignValues]
    split_ifs with hlt
    · simp [interpolate_field_data]
    · omega
  · intro cls resource_key pods idx hne hlen
    have hne1 : pods.map (fun p : Pod => p.requested_cpu) ≠ [] := by
      simpa using hne
    have hne2 : pods.map (fun p : Pod => p.requested_memory) ≠ [] := by
      simpa using hne
    have hne3 : pods.map (fun p : Pod => p.cpu_util) ≠ [] := by
      simpa using hne
    refine ⟨rfl, ?_, ?_, ?_⟩
    · show (npSumAxis0 (pods.map (fun p : Pod => p.requested_cpu))).length = _
      refine npSumAxis0_length _ _ hne1 ?_
      rintro x hx
      obtain ⟨p, hp, rfl⟩ := List.mem_map.mp hx
      exact (hlen p hp).1
    · show (npSumAxis0
        (pods.map (fun p : Pod => p.requested_memory))).length = _
      refine npSumAxis0_length _ _ hne2 ?_
      rintro x hx
      obtain ⟨p, hp, rfl⟩ := List.mem_map.mp hx
      exact (hlen p hp).2.1
    · show (npMeanAxis0 (pods.map (fun p : Pod => p.cpu_util))).length = _
      rw [npMeanAxis0, List.length_map]
      refine npSumAxis0_length _ _ hne3 ?_
      rintro x hx
      obtain ⟨p, hp, rfl⟩ := List.mem_map.mp hx
      exact (hlen p hp).2.2

/-- C9 witness: a raw series of one sample against a grid of two timestamps
is interpolated to grid length, and the aggregate of one pod keeps grid
length. -/
theorem C9_lengths_amended_witness :
    (([5] : List ℚ)).length = (([7] : List ℚ)).length ∧
    (([5] : List ℚ)).length ≤ (([0, 10] : List ℚ)).length ∧
    (alignValues [0, 10] [5] [7]).length = ([0, 10] : List ℚ).length :=
  ⟨by decide, by decide,
    (C9_lengths_amended [0, 10] [5] [7] (by decide) (by decide)).1⟩

end Carmen
